import Mathlib

/-!
Verification of the Samsung Health Dashboard parsing-and-aggregation pipeline
(`src/utils/healthParser.ts`) against its natural-language specification.

The TypeScript source is shallowly embedded below: pure functions become Lean
functions; JavaScript numbers are modelled by `ℚ` (exact arithmetic) except
where floating-point special values (`NaN`, `Infinity`) are observable, where a
small `JSNum` type is used, and where the source computes with transcendental
functions (`Math.sin`, `Math.atan2`, `Math.sqrt`), where `ℝ` is used.
JavaScript `Date` parsing of strings is abstracted: records carry the parsed
millisecond instant as `Option Int` (`none` for an unparseable `NaN` date).
-/

namespace HealthParser

/-! ### Generic string helpers (substring search, trimming)

`String.prototype.includes` and `String.prototype.trim` from JavaScript,
modelled on `List Char`. `trim`'s whitespace set is restricted to the ASCII
whitespace actually occurring in health exports. -/

/-- Boolean list-prefix test (`==` on characters). -/
def isPrefixList : List Char → List Char → Bool
  | [], _ => true
  | _ :: _, [] => false
  | a :: as, b :: bs => a == b && isPrefixList as bs

/-- Does `needle` occur contiguously inside `hay`?  (JS `String.includes`.) -/
def containsList (needle : List Char) : List Char → Bool
  | [] => isPrefixList needle []
  | b :: hay => isPrefixList needle (b :: hay) || containsList needle hay

/-- JS `haystack.includes(needle)` on strings. -/
def containsSubstr (needle hay : String) : Bool :=
  containsList needle.data hay.data

/-- ASCII whitespace characters stripped by JS `String.prototype.trim`. -/
def isWS (c : Char) : Bool :=
  c == ' ' || c == '\t' || c == '\n' || c == '\r'

/-- JS `s.trim()` on character lists: drop leading and trailing whitespace. -/
def trimList (l : List Char) : List Char :=
  ((l.dropWhile isWS).reverse.dropWhile isWS).reverse

/-- JS `s.trim()` on strings. -/
def trimStr (s : String) : String :=
  ⟨trimList s.data⟩

/-! ### `splitCSVLine` (healthParser.ts lines 159–176)

The source walks the line character by character.  A `"` toggles `inQuotes`
and is **not** appended to the current field; a `,` outside quotes ends the
field; every other character is appended.  Each finished field is passed
through `.trim().replace(/^"|"$/g, '').replace(/""/g, '"')` — the two
`replace`s are embedded faithfully even though the scan never lets a `"`
reach the field text. -/

/-- `.replace(/^"|"$/g, '')`: remove one leading and one trailing `"`. -/
def stripOuterQuotes (l : List Char) : List Char :=
  let l1 := match l with
    | '"' :: rest => rest
    | other => other
  match l1.reverse with
  | '"' :: rest => rest.reverse
  | _ => l1

/-- `.replace(/""/g, '"')`: collapse each (non-overlapping) `""` to `"`. -/
def collapseDoubledQuotes : List Char → List Char
  | [] => []
  | '"' :: '"' :: rest => '"' :: collapseDoubledQuotes rest
  | c :: rest => c :: collapseDoubledQuotes rest

/-- Post-processing applied to every raw field of `splitCSVLine`. -/
def finishField (cur : List Char) : String :=
  ⟨collapseDoubledQuotes (stripOuterQuotes (trimList cur))⟩

/-- The character loop of `splitCSVLine`; `cur` is the current field in
reverse order (accumulator). -/
def splitCSVLineAux : List Char → List Char → Bool → List String
  | [], cur, _ => [finishField cur.reverse]
  | c :: rest, cur, inQuotes =>
    if c == '"' then
      splitCSVLineAux rest cur (!inQuotes)
    else if c == ',' && !inQuotes then
      finishField cur.reverse :: splitCSVLineAux rest [] inQuotes
    else
      splitCSVLineAux rest (c :: cur) inQuotes

/-- `splitCSVLine` from healthParser.ts: quote-aware comma split. -/
def splitCSVLine (line : String) : List String :=
  splitCSVLineAux line.data [] false

/-! ### `parseCSV` (healthParser.ts lines 178–222) -/

/-- Accumulator loop for `splitLines` (`cur` is the current line reversed). -/
def splitLinesAux : List Char → List Char → List String
  | [], cur => [⟨cur.reverse⟩]
  | c :: rest, cur =>
    if c == '\n' then (⟨cur.reverse⟩ : String) :: splitLinesAux rest []
    else splitLinesAux rest (c :: cur)

/-- JS `csvText.split('\n')`: split on every newline, keeping empty parts. -/
def splitLines (s : String) : List String :=
  splitLinesAux s.data []

/-- JS `s.toLowerCase()` (ASCII case folding suffices for the inputs here). -/
def toLowerStr (s : String) : String :=
  ⟨s.data.map Char.toLower⟩

/-- Keyword test of the header heuristic: the lowercased line contains one of
`date`, `time`, `count`, `efficiency`, `duration`, `step`. -/
def headerKeywordHit (line : String) : Bool :=
  let lower := toLowerStr line
  containsSubstr "date" lower || containsSubstr "time" lower ||
  containsSubstr "count" lower || containsSubstr "efficiency" lower ||
  containsSubstr "duration" lower || containsSubstr "step" lower

/-- A line qualifies as header when it splits into more than 5 fields and
hits a keyword. -/
def headerPred (line : String) : Bool :=
  decide ((splitCSVLine line).length > 5) && headerKeywordHit line

/-- Header-row selection of `parseCSV`: first keyword-qualified line among the
first 12 lines, else first line anywhere with more than 5 fields. -/
def headerIdx (lines : List String) : Option Nat :=
  match (lines.take 12).findIdx? headerPred with
  | some i => some i
  | none => lines.findIdx? (fun l => decide ((splitCSVLine l).length > 5))

/-- `parseCSV` from healthParser.ts: returns one association list
(header → raw field) per accepted data row. -/
def parseCSV (csvText : String) : List (List (String × String)) :=
  let lines := splitLines csvText
  if lines.length < 2 then []
  else
    match headerIdx lines with
    | none => []
    | some hi =>
      let headers := splitCSVLine ((lines.drop hi).headD "")
      (lines.drop (hi + 1)).filterMap fun raw =>
        let line := trimStr raw
        if line = "" then none
        else
          let values := splitCSVLine line
          if values.length < headers.length then none
          else some (headers.zip values)

/-! ### Sleep reconciliation (healthParser.ts lines 404–486)

A raw sleep row, as consumed by the enrichment `map` in `transformHealthData`.
JS `Date` string parsing is abstracted: `startMs`/`endMs` hold
`new Date(...).getTime()` in milliseconds, `none` standing for `NaN`
(unparseable).  Per source line 420 an *absent* end field yields
`new Date(0)`, i.e. `endMs = some 0`.  `durationField`, `efficiencyField` and
`scoreField` are the `parseFloat(...) || 0` fallback-chain results. -/
structure SleepRow where
  startMs : Option Int
  endMs : Option Int
  offsetMinutes : Int
  durationField : ℚ
  efficiencyField : ℚ
  scoreField : ℚ
  fileName : String

/-- The enriched session produced for each surviving raw sleep row
(fields `_start`, `_end`, `_duration`, `_rawDuration`, `_efficiency`,
`_score`, `_isCombined` at source lines 451–460). Times are local
milliseconds. -/
structure EnrichedSleep where
  startT : ℚ
  endT : ℚ
  duration : ℚ
  rawDuration : ℚ
  efficiency : ℚ
  score : ℚ
  isCombined : Bool
deriving DecidableEq, Repr

/-- Enrichment of one raw sleep row (source lines 406–461): duration-unit
rescale, end synthesis, efficiency normalisation and asleep-time resolution.
Returns `none` for an unparseable start (source line 422). -/
def enrichSleep (s : SleepRow) : Option EnrichedSleep :=
  match s.startMs with
  | none => none
  | some start =>
    let isCombined := containsSubstr "combined" (toLowerStr s.fileName)
    -- a duration above 1440 is taken to be milliseconds (line 416)
    let raw0 : ℚ := if s.durationField > 1440 then s.durationField / 60000 else s.durationField
    let localStart : ℚ := (start : ℚ) + (s.offsetMinutes : ℚ) * 60000
    -- `isNaN(end) || end <= start` (line 428)
    let endInvalid : Bool :=
      match s.endMs with
      | none => true
      | some e => decide (e ≤ start)
    let localEnd : ℚ :=
      if endInvalid then localStart + raw0 * 60000
      else ((s.endMs.getD 0 : Int) : ℚ) + (s.offsetMinutes : ℚ) * 60000
    -- derive a zero duration from a valid end (line 431)
    let rawDuration : ℚ :=
      if endInvalid = false ∧ raw0 = 0 then
        (((s.endMs.getD 0 : Int) : ℚ) - (start : ℚ)) / 60000
      else raw0
    -- efficiency values at most 1 are fractions (line 435)
    let efficiency : ℚ :=
      if 0 < s.efficiencyField ∧ s.efficiencyField ≤ 1 then s.efficiencyField * 100
      else s.efficiencyField
    -- `Math.abs(span - rawDuration) < 5` with `span = (end - start)/60000`
    -- (lines 445–446); a `NaN` end makes the comparison false
    let spanMatches : Bool :=
      match s.endMs with
      | none => false
      | some e => decide (|((e : ℚ) - (start : ℚ)) / 60000 - rawDuration| < 5)
    let asleepTime : ℚ :=
      if isCombined = false ∧ 0 < efficiency ∧ efficiency < 100 ∧ spanMatches = true then
        rawDuration * (efficiency / 100)
      else rawDuration
    some ⟨localStart, localEnd, asleepTime, rawDuration, efficiency, s.scoreField, isCombined⟩

/-- The enrichment pass with the `_duration > 0` filter (source line 461). -/
def enrichAll (rows : List SleepRow) : List EnrichedSleep :=
  (rows.filterMap enrichSleep).filter fun e => decide (0 < e.duration)

/-- The sort order of the dedup comparator (source lines 464–468): combined
sessions first, then descending asleep duration (`a` comes no later than
`b`). -/
def sleepLE (a b : EnrichedSleep) : Prop :=
  (a.isCombined = true ∧ b.isCombined = false) ∨
  (a.isCombined = b.isCombined ∧ b.duration ≤ a.duration)

instance : DecidableRel sleepLE := fun a b => by
  unfold sleepLE; infer_instance

instance : IsTotal EnrichedSleep sleepLE := by
  constructor
  intro a b
  cases ha : a.isCombined <;> cases hb : b.isCombined <;>
    simp [sleepLE, ha, hb, le_total]

instance : IsTrans EnrichedSleep sleepLE := by
  constructor
  intro a b c hab hbc
  rcases hab with ⟨ha, hb⟩ | ⟨hab, hd⟩ <;> rcases hbc with ⟨hb', hc⟩ | ⟨hbc, hd'⟩
  · exact Or.inl ⟨ha, hc⟩
  · exact Or.inl ⟨ha, hbc ▸ hb⟩
  · exact Or.inl ⟨hab ▸ hb', hc⟩
  · exact Or.inr ⟨hab.trans hbc, hd'.trans hd⟩

/-- The priority sort of `enrichedSleep` (source lines 464–468), modelled by a
stable insertion sort (JS `Array.prototype.sort` is stable). -/
def sortSleep (l : List EnrichedSleep) : List EnrichedSleep :=
  List.insertionSort sleepLE l

/-- Minutes of intersection of the two `[start, end)` ranges
(source lines 473–475). -/
def overlapMinutes (k c : EnrichedSleep) : ℚ :=
  max 0 (min k.endT c.endT - max k.startT c.startT) / 60000

/-- `keptSleep.some(...)` of source lines 472–479: is candidate `c` covered
for more than 80 % of its own asleep duration by an accepted session? -/
def sleepRedundant (kept : List EnrichedSleep) (c : EnrichedSleep) : Bool :=
  kept.any fun k => decide (overlapMinutes k c / c.duration > 4 / 5)

/-- One step of the greedy dedup accumulation (source lines 471–484). -/
def dedupStep (kept : List EnrichedSleep) (c : EnrichedSleep) : List EnrichedSleep :=
  if sleepRedundant kept c then kept else kept ++ [c]

/-- The greedy dedup pass over the priority-sorted candidates. -/
def dedupSleep (l : List EnrichedSleep) : List EnrichedSleep :=
  l.foldl dedupStep []

/-- The full sleep reconciliation: enrich, filter, priority-sort, dedup
(`processedSleep` at source line 486). -/
def keptSleep (rows : List SleepRow) : List EnrichedSleep :=
  dedupSleep (sortSleep (enrichAll rows))

/-! ### Year discovery and the shape of the returned mapping
(healthParser.ts lines 489–530 and 1041–1053)

Only the year extraction and the key structure of the returned
`Record<string, YearStats>` are modelled here; each record is represented by
the result of `new Date(...).getFullYear()` on its best timestamp (`none` for
`NaN`, covering both unparseable and absent dates). -/
structure HealthDataYears where
  stepYears : List (Option Int)
  sleepYears : List (Option Int)
  heartRateYears : List (Option Int)
  hrvYears : List (Option Int)
  exerciseYears : List (Option Int)

/-- The `yearSet` accumulation of source lines 489–520 followed by
`Array.from(yearSet).sort()` (line 520): distinct parsed years, sorted.
(For four-digit years JS's lexicographic default sort agrees with the
numeric order used here.) -/
def discoverYears (d : HealthDataYears) : List Int :=
  let all := d.stepYears ++ d.sleepYears ++ d.heartRateYears ++
    d.hrvYears ++ d.exerciseYears
  List.insertionSort (· ≤ ·) (all.filterMap id).dedup

/-- The keys of the mapping returned by `transformHealthData`: `[]` when no
year is discovered (source lines 523–526 return `{}` after a console
warning), else the year labels plus the synthetic `"All Time"` entry added at
lines 1042–1053. -/
def transformYearKeys (d : HealthDataYears) : List String :=
  let years := (discoverYears d).map toString
  if years = [] then [] else years ++ ["All Time"]

/-! ### JavaScript numbers with special values (for the unguarded spots)

`ℚ` cannot represent `NaN`/`Infinity`, so the computations in which they are
observable are modelled with `JSNum`. -/
inductive JSNum where
  | fin : ℚ → JSNum
  | nan : JSNum
  | inf : JSNum
deriving DecidableEq, Repr

/-- `Math.round` (round half towards `+∞`) on an exact rational. -/
def jsRoundQ (q : ℚ) : ℤ := ⌊q + 1 / 2⌋

/-- JS `value > 0` (false for `NaN`, true for `Infinity`). -/
def jsGtZero : JSNum → Bool
  | .fin q => decide (0 < q)
  | .nan => false
  | .inf => true

/-! ### Per-day wellness values (healthParser.ts lines 636–660, 1092) -/

/-- `Math.round(vals.reduce((a, b) => a + b, 0) / vals.length)` of source
lines 642–645 (HRV) and 647–650 (stress): the per-day mean.  An empty day
bucket divides `0 / 0`, giving `NaN` (and `Math.round(NaN)` is `NaN`). -/
def dailyMeanValue (vals : List ℚ) : JSNum :=
  if vals.length = 0 then .nan else .fin (jsRoundQ (vals.sum / vals.length))

/-- Comparison `(·.1 ≤ ·.1)` used for all per-day series sorts
(`a.date.localeCompare(b.date)`). -/
def fstLE {β : Type} (a b : String × β) : Prop := a.1 ≤ b.1

instance {β : Type} : DecidableRel (@fstLE β) := fun a b => by
  unfold fstLE; infer_instance

instance {β : Type} : IsTotal (String × β) fstLE :=
  ⟨fun a b => le_total a.1 b.1⟩

instance {β : Type} : IsTrans (String × β) fstLE :=
  ⟨fun _ _ _ hab hbc => le_trans hab hbc⟩

/-- `.sort((a, b) => a.date.localeCompare(b.date))` on a per-day series. -/
def sortByDate {β : Type} (l : List (String × β)) : List (String × β) :=
  List.insertionSort fstLE l

/-- The `dailyHRVData` pipeline of source lines 642–645 (identical in shape
to `dailyStressData` at 647–650): per-day mean, then the `value > 0` filter,
then the date sort. -/
def dailyHRVData (buckets : List (String × List ℚ)) : List (String × JSNum) :=
  sortByDate ((buckets.map fun b => (b.1, dailyMeanValue b.2)).filter
    fun p => jsGtZero p.2)

/-- The guarded per-year reduction pattern
`xs.length > 0 ? Math.round(xs.reduce(..) / xs.length) : 0`
(source lines 657–659: `avgRestingHR`, `avgHRV`, `avgStress`). -/
def guardedRoundMean (vals : List ℚ) : ℚ :=
  if vals.length = 0 then 0 else (jsRoundQ (vals.sum / vals.length) : ℚ)

/-- The guarded per-year minimum
`dailySpO2Data.length > 0 ? Math.min(...) : 0` (source line 660). -/
def guardedMin (vals : List ℚ) : ℚ :=
  match vals with
  | [] => 0
  | v :: vs => vs.foldl min v

/-- All-Time `minSpO2` (source line 1092):
`Math.min(...allYears.map(y => y.minSpO2).filter(v => v > 0))`.
JS `Math.min()` of an empty argument list is `+Infinity`. -/
def allTimeMinSpO2 (perYear : List ℚ) : JSNum :=
  match perYear.filter fun v => decide (0 < v) with
  | [] => .inf
  | v :: vs => .fin (vs.foldl min v)

/-! ### The synthetic "All Time" entry (healthParser.ts lines 1041–1120)

`YearStatsR` is the projection of `YearStats` onto the fields whose All-Time
aggregation the specification describes (additive totals, rate-like averages,
best-of records and the merged per-day series). -/

/-- `{ count, date }` best-day / most-steps records. -/
structure BestCount where
  count : ℚ
  date : String
deriving DecidableEq, Repr

/-- `{ name, steps }` best-month records. -/
structure BestMonth where
  name : String
  steps : ℚ
deriving DecidableEq, Repr

/-- `{ duration, type, date }` longest-workout records. -/
structure BestWorkout where
  duration : ℚ
  wtype : String
  date : String
deriving DecidableEq, Repr

/-- `{ score, date }` best-sleep-score records. -/
structure BestScore where
  score : ℚ
  date : String
deriving DecidableEq, Repr

/-- A per-day workout rollup entry `{ date, duration, calories, distance }`. -/
structure DatedW where
  date : String
  duration : ℚ
  calories : ℚ
  distance : ℚ
deriving DecidableEq, Repr

/-- Comparison by `.date` for `DatedW` series. -/
def datedWLE (a b : DatedW) : Prop := a.date ≤ b.date

instance : DecidableRel datedWLE := fun a b => by
  unfold datedWLE; infer_instance

instance : IsTotal DatedW datedWLE := ⟨fun a b => le_total a.date b.date⟩

instance : IsTrans DatedW datedWLE := ⟨fun _ _ _ hab hbc => le_trans hab hbc⟩

/-- The projection of `YearStats` used by the All-Time aggregation claims.
Per-day series carry a date and one rational value. -/
structure YearStatsR where
  totalSteps : ℚ
  totalCalories : ℚ
  totalDistance : ℚ
  totalWorkouts : ℚ
  totalWorkoutDuration : ℚ
  totalWorkoutCalories : ℚ
  totalWorkoutDistance : ℚ
  dailyAvg : ℚ
  avgSpeed : ℚ
  avgSleepDuration : ℚ
  avgEfficiency : ℚ
  avgSleepScore : ℚ
  avgRestingHR : ℚ
  avgHRV : ℚ
  avgStress : ℚ
  bestDay : BestCount
  bestMonth : BestMonth
  prMostStepsDay : BestCount
  prLongestWorkout : BestWorkout
  prBestSleepScore : BestScore
  dailyStepData : List (String × ℚ)
  dailySleepData : List (String × ℚ)
  dailySleepScoreData : List (String × ℚ)
  dailyHRData : List (String × ℚ)
  dailyHRVData : List (String × ℚ)
  dailyStressData : List (String × ℚ)
  dailySpO2Data : List (String × ℚ)
  dailyWorkoutData : List DatedW

/-- The `result['All Time']` construction (source lines 1053–1120) restricted
to the fields of `YearStatsR`; `ys` is `allYears = Object.values(result)`. -/
def allTimeStats (ys : List YearStatsR) : YearStatsR where
  totalSteps := (ys.map (·.totalSteps)).sum
  totalCalories := (ys.map (·.totalCalories)).sum
  totalDistance := (ys.map (·.totalDistance)).sum
  totalWorkouts := (ys.map (·.totalWorkouts)).sum
  totalWorkoutDuration := (ys.map (·.totalWorkoutDuration)).sum
  totalWorkoutCalories := (ys.map (·.totalWorkoutCalories)).sum
  totalWorkoutDistance := (ys.map (·.totalWorkoutDistance)).sum
  dailyAvg := (jsRoundQ ((ys.map (·.dailyAvg)).sum / ys.length) : ℚ)
  avgSpeed := (jsRoundQ ((ys.map (·.avgSpeed)).sum / ys.length * 10) : ℚ) / 10
  avgSleepDuration := (ys.map (·.avgSleepDuration)).sum / ys.length
  avgEfficiency := (jsRoundQ ((ys.map (·.avgEfficiency)).sum / ys.length) : ℚ)
  avgSleepScore := (jsRoundQ ((ys.map (·.avgSleepScore)).sum / ys.length) : ℚ)
  avgRestingHR := (jsRoundQ ((ys.map (·.avgRestingHR)).sum / ys.length) : ℚ)
  avgHRV := (jsRoundQ ((ys.map (·.avgHRV)).sum / ys.length) : ℚ)
  avgStress := (jsRoundQ ((ys.map (·.avgStress)).sum / ys.length) : ℚ)
  bestDay := ys.foldl
    (fun best y => if y.bestDay.count > best.count then y.bestDay else best)
    ⟨0, ""⟩
  bestMonth := ys.foldl
    (fun best y => if y.bestMonth.steps > best.steps then y.bestMonth else best)
    ⟨"", 0⟩
  prMostStepsDay := ys.foldl
    (fun best y =>
      if y.prMostStepsDay.count > best.count then y.prMostStepsDay else best)
    ⟨0, ""⟩
  prLongestWorkout := ys.foldl
    (fun best y =>
      if y.prLongestWorkout.duration > best.duration then y.prLongestWorkout
      else best)
    ⟨0, "", ""⟩
  prBestSleepScore := ys.foldl
    (fun best y =>
      if y.prBestSleepScore.score > best.score then y.prBestSleepScore else best)
    ⟨0, ""⟩
  dailyStepData := sortByDate (ys.flatMap (·.dailyStepData))
  dailySleepData := sortByDate (ys.flatMap (·.dailySleepData))
  dailySleepScoreData := sortByDate (ys.flatMap (·.dailySleepScoreData))
  dailyHRData := sortByDate (ys.flatMap (·.dailyHRData))
  dailyHRVData := sortByDate (ys.flatMap (·.dailyHRVData))
  dailyStressData := sortByDate (ys.flatMap (·.dailyStressData))
  dailySpO2Data := sortByDate (ys.flatMap (·.dailySpO2Data))
  dailyWorkoutData := List.insertionSort datedWLE (ys.flatMap (·.dailyWorkoutData))

/-- The wall-clock-span test of the asleep-time resolution (source line 446):
both instants parsed, and `|((end − start) in minutes) − raw| < 5`. -/
def spanMatchesRaw (s : SleepRow) (raw : ℚ) : Prop :=
  ∃ st en, s.startMs = some st ∧ s.endMs = some en ∧
    |((en : ℚ) - (st : ℚ)) / 60000 - raw| < 5

/-- A `YearStatsR` with every field zero or empty (baseline for examples). -/
def zeroYear : YearStatsR where
  totalSteps := 0
  totalCalories := 0
  totalDistance := 0
  totalWorkouts := 0
  totalWorkoutDuration := 0
  totalWorkoutCalories := 0
  totalWorkoutDistance := 0
  dailyAvg := 0
  avgSpeed := 0
  avgSleepDuration := 0
  avgEfficiency := 0
  avgSleepScore := 0
  avgRestingHR := 0
  avgHRV := 0
  avgStress := 0
  bestDay := ⟨0, ""⟩
  bestMonth := ⟨"", 0⟩
  prMostStepsDay := ⟨0, ""⟩
  prLongestWorkout := ⟨0, "", ""⟩
  prBestSleepScore := ⟨0, ""⟩
  dailyStepData := []
  dailySleepData := []
  dailySleepScoreData := []
  dailyHRData := []
  dailyHRVData := []
  dailyStressData := []
  dailySpO2Data := []
  dailyWorkoutData := []

/-- Example year with daily step counts 100 and 200 (total 300). -/
def exampleYear1 : YearStatsR :=
  { zeroYear with
      totalSteps := 100 + 200
      dailyStepData := [("2022-01-01", 100), ("2022-01-02", 200)] }

/-- Example year with a single daily step count 300. -/
def exampleYear2 : YearStatsR :=
  { zeroYear with
      totalSteps := 300
      dailyStepData := [("2023-05-01", 300)] }

/-! ### Real-valued functions (`Math.sin` / `Math.cos` / `Math.atan2` /
`Math.sqrt` call sites)

These source functions compute with transcendental floating-point operations;
they are embedded over `ℝ` (the usual idealisation), hence are
`noncomputable`. -/

noncomputable section RealValued
open Real

/-- JS `Math.atan2(y, x)`: the angle of `(x, y)` in `(-π, π]`, written with
`Real.arctan` case by case exactly as `atan2` is specified. -/
def atan2 (y x : ℝ) : ℝ :=
  if 0 < x then arctan (y / x)
  else if x < 0 then
    (if 0 ≤ y then arctan (y / x) + π else arctan (y / x) - π)
  else (if 0 < y then π / 2 else if y < 0 then -(π / 2) else 0)

/-- `calculateCircularAverage` (healthParser.ts lines 349–361): map each
minute-of-day to an angle, average the unit vectors, convert the `atan2`
resultant (wrapped by `+2π` when negative) back to minutes. -/
def calculateCircularAverage (minutesArray : List ℝ) : ℝ :=
  if minutesArray = [] then 0
  else
    let n : ℝ := minutesArray.length
    let sinSum := (minutesArray.map fun m => sin (m / 1440 * (2 * π))).sum
    let cosSum := (minutesArray.map fun m => cos (m / 1440 * (2 * π))).sum
    let avgAngle0 := atan2 (sinSum / n) (cosSum / n)
    let avgAngle := if avgAngle0 < 0 then avgAngle0 + 2 * π else avgAngle0
    avgAngle / (2 * π) * 1440

/-- `calculateCorrelation` (healthParser.ts lines 382–396): Pearson
coefficient with the empty/length guard and the zero-denominator guard. -/
def calculateCorrelation (x y : List ℝ) : ℝ :=
  if x.length ≠ y.length ∨ x.length = 0 then 0
  else
    let n : ℝ := x.length
    let sumX := x.sum
    let sumY := y.sum
    let sumXY := ((x.zip y).map fun p => p.1 * p.2).sum
    let sumX2 := (x.map fun a => a * a).sum
    let sumY2 := (y.map fun a => a * a).sum
    let numerator := n * sumXY - sumX * sumY
    let denominator :=
      Real.sqrt ((n * sumX2 - sumX * sumX) * (n * sumY2 - sumY * sumY))
    if denominator = 0 then 0 else numerator / denominator

/-- The `n·ΣX² − (ΣX)²` expression whose vanishing the source's
`denominator === 0` guard detects: the (scaled) variance numerator. -/
def varNum (x : List ℝ) : ℝ :=
  x.length * ((x.map fun a => a * a).sum) - x.sum * x.sum

/-- JS `Math.trunc`-style truncation of a real towards zero (the rounding
inside the `%` remainder operator). -/
def realTrunc (x : ℝ) : ℤ :=
  if 0 ≤ x then ⌊x⌋ else -⌊-x⌋

/-- JS `x % y`: remainder with the sign of the dividend. -/
def jsMod (x y : ℝ) : ℝ := x - y * (realTrunc (x / y) : ℝ)

/-- JS `i.toString().padStart(2, '0')` for an integer-valued number. -/
def pad2 (i : ℤ) : String :=
  if (toString i).length < 2 then "0" ++ toString i else toString i

/-- `formatToHHmm` (healthParser.ts lines 363–368): `0` becomes the no-data
placeholder, anything else is formatted `HH:mm` with
`h = Math.floor(minutes / 60) % 24` and `m = Math.round(minutes % 60)`. -/
def formatToHHmm (minutes : ℝ) : String :=
  if minutes = 0 then "--:--"
  else
    let h : ℤ := Int.tmod ⌊minutes / 60⌋ 24
    let m : ℤ := ⌊jsMod minutes 60 + 1 / 2⌋
    pad2 h ++ ":" ++ pad2 m

end RealValued

end HealthParser

namespace HealthParser

/-! ## Helper lemmas -/

/-- A predicate false on every element gives `findIdx? = none`. -/
theorem findIdx?_none_of_all_false {α : Type} {p : α → Bool} {l : List α}
    (h : ∀ x ∈ l, p x = false) : l.findIdx? p = none := by
  rw [List.findIdx?_eq_none_iff]
  exact h

/-- `findIdx?` returns the first index whose element satisfies the
predicate. -/
theorem findIdx?_first {α : Type} (p : α → Bool) (d : α) :
    ∀ (l : List α) (i : Nat), i < l.length →
      (∀ j, j < i → p (l.getD j d) = false) → p (l.getD i d) = true →
      l.findIdx? p = some i := by
  intro l
  induction l with
  | nil => intro i hi; simp at hi
  | cons a t ih =>
    intro i hi hbefore hit
    cases i with
    | zero =>
      simp only [List.getD_cons_zero] at hit
      simp [List.findIdx?_cons, hit]
    | succ i =>
      have ha : p a = false := by
        have := hbefore 0 (Nat.succ_pos i)
        simpa using this
      have ht : t.findIdx? p = some i := by
        refine ih i (by simpa using hi) ?_ ?_
        · intro j hj
          have := hbefore (j + 1) (by omega)
          simpa using this
        · simpa using hit
      simp [List.findIdx?_cons, ha, ht]

/-- The key of a "keep the larger" fold is the running maximum of the keys. -/
theorem foldl_best {α β : Type} (f : α → β) (key : β → ℚ) :
    ∀ (l : List α) (b : β),
      key (l.foldl (fun best y => if key (f y) > key best then f y else best) b) =
        l.foldl (fun acc y => max acc (key (f y))) (key b) := by
  intro l
  induction l with
  | nil => intro b; rfl
  | cons a t ih =>
    intro b
    simp only [List.foldl_cons]
    rw [ih]
    congr 1
    by_cases h : key (f a) > key b
    · rw [if_pos h, max_eq_right h.le]
    · rw [if_neg h, max_eq_left (le_of_not_lt h)]

/-! ## Claim C4 (status: code_bug)

`splitCSVLine` never appends the quote character to the current field (a `"`
only toggles `inQuotes`), so the `.replace(/""/g, '"')` collapse written in
the source is dead code: an escaped double-quote is removed entirely instead
of being collapsed to one literal quote. -/

/-- C4: actual behaviour of `splitCSVLine` at the claim's two examples.
`a,"b,c",d` splits as claimed, but `"he said ""hi"""` yields `he said hi`
(quotes dropped), not the claimed `he said "hi"`. -/
theorem C4_splitCSVLine_behavior :
    splitCSVLine "a,\"b,c\",d" = ["a", "b,c", "d"] ∧
    splitCSVLine "\"he said \"\"hi\"\"\"" = ["he said hi"] := by
  constructor <;> decide

/-! ## Claim C3 (status: corrected)

With zero discoverable years, `transformHealthData` logs a console warning
and returns `{}` — an **empty mapping**, not a terminal failure — and the
caller (`App.tsx` line 248–256) proceeds to the dashboard with it. -/

/-- C3 counterexample: on data with no discoverable years the transformation
returns the empty mapping (the claim asserts it does not). -/
theorem C3_counterexample :
    transformYearKeys ⟨[], [], [], [], []⟩ = [] := by decide

/-- C3 (amended): the transformation is total; it returns the empty mapping
exactly when zero years are discovered, and otherwise the mapping carries the
synthetic `"All Time"` key. -/
theorem C3_zeroYears :
    (∀ d : HealthDataYears, discoverYears d = [] ↔ transformYearKeys d = []) ∧
    (∀ d : HealthDataYears, discoverYears d ≠ [] →
      "All Time" ∈ transformYearKeys d) := by
  constructor
  · intro d
    constructor
    · intro h
      simp [transformYearKeys, h]
    · intro h
      by_contra hne
      have hmap : (discoverYears d).map toString ≠ [] := by
        simpa using hne
      rw [transformYearKeys] at h
      simp only [if_neg hmap] at h
      exact hmap (by simpa using congrArg (List.take ((discoverYears d).map toString).length) h)
  · intro d h
    have hmap : (discoverYears d).map toString ≠ [] := by simpa using h
    rw [transformYearKeys]
    simp only [if_neg hmap]
    exact List.mem_append_right _ (by simp)

/-- C3 witness: a single 2023 step record produces a mapping with the
`"All Time"` key. -/
theorem C3_witness :
    "All Time" ∈ transformYearKeys ⟨[some 2023], [], [], [], []⟩ :=
  C3_zeroYears.2 ⟨[some 2023], [], [], [], []⟩ (by decide)

/-! ## Claim C1 (status: corrected)

The dedup rejection test is strict (`overlap / duration > 0.8`, source line
478), so a combined candidate whose range covers **exactly** 80 % of a
non-combined candidate does not eliminate it; the claim's "at least 80 %"
clause fails there. -/

/-- C1 counterexample: a combined session covering exactly 80 % of a
non-combined session's duration — both survive dedup. -/
theorem C1_counterexample :
    (⟨0, 4800000, 80, 80, 0, 0, true⟩ : EnrichedSleep).isCombined = true ∧
    (⟨0, 6000000, 100, 100, 0, 0, false⟩ : EnrichedSleep).isCombined = false ∧
    overlapMinutes ⟨0, 4800000, 80, 80, 0, 0, true⟩ ⟨0, 6000000, 100, 100, 0, 0, false⟩ =
      4 / 5 * 100 ∧
    dedupSleep (sortSleep
        [⟨0, 4800000, 80, 80, 0, 0, true⟩, ⟨0, 6000000, 100, 100, 0, 0, false⟩]) =
      [⟨0, 4800000, 80, 80, 0, 0, true⟩, ⟨0, 6000000, 100, 100, 0, 0, false⟩] := by
  refine ⟨rfl, rfl, by norm_num [overlapMinutes], ?_⟩
  norm_num [dedupSleep, sortSleep, List.insertionSort, List.orderedInsert, sleepLE,
    dedupStep, sleepRedundant, overlapMinutes, List.foldl]

/-- C1 (amended): candidates are sorted combined-first then by descending
asleep duration; a candidate is rejected exactly when an accepted session's
`[start, end)` range overlaps it for **more than** 80 % of the candidate's
own asleep duration; in particular, when a combined candidate overlaps a
non-combined one by more than 80 % of its duration, only the combined one
survives. -/
theorem C1_dedup :
    (∀ l : List EnrichedSleep, List.Sorted sleepLE (sortSleep l)) ∧
    (∀ (kept : List EnrichedSleep) (c : EnrichedSleep),
      dedupStep kept c = kept ↔
        ∃ k ∈ kept, overlapMinutes k c / c.duration > 4 / 5) ∧
    (∀ a b : EnrichedSleep, a.isCombined = true → b.isCombined = false →
      overlapMinutes a b / b.duration > 4 / 5 →
      dedupSleep (sortSleep [a, b]) = [a] ∧ dedupSleep (sortSleep [b, a]) = [a]) := by
  refine ⟨fun l => List.sorted_insertionSort sleepLE l, ?_, ?_⟩
  · intro kept c
    constructor
    · intro h
      by_cases hr : sleepRedundant kept c = true
      · rw [sleepRedundant, List.any_eq_true] at hr
        obtain ⟨k, hk, hgt⟩ := hr
        exact ⟨k, hk, by simpa using hgt⟩
      · rw [dedupStep, if_neg hr] at h
        have := congrArg List.length h
        simp at this
    · intro ⟨k, hk, hgt⟩
      have hr : sleepRedundant kept c = true := by
        rw [sleepRedundant, List.any_eq_true]
        exact ⟨k, hk, by simpa using hgt⟩
      rw [dedupStep, if_pos hr]
  · intro a b ha hb hov
    have hab : sleepLE a b := Or.inl ⟨ha, hb⟩
    have hba : ¬ sleepLE b a := by simp [sleepLE, ha, hb]
    have h1 : sortSleep [a, b] = [a, b] := by
      simp [sortSleep, List.orderedInsert, hab]
    have h2 : sortSleep [b, a] = [a, b] := by
      simp [sortSleep, List.orderedInsert, hba]
    have hded : dedupSleep [a, b] = [a] := by
      have hra : sleepRedundant [] a = false := rfl
      have hrb : sleepRedundant [a] b = true := by
        rw [sleepRedundant, List.any_eq_true]
        exact ⟨a, by simp, by simpa using hov⟩
      simp [dedupSleep, dedupStep, hra, hrb]
    exact ⟨by rw [h1]; exact hded, by rw [h2]; exact hded⟩

/-- C1 witness: a combined session overlapping 81 % of a non-combined
session's duration eliminates it in either input order. -/
theorem C1_witness :
    dedupSleep (sortSleep
        [⟨0, 4860000, 81, 81, 0, 0, true⟩, ⟨0, 6000000, 100, 100, 0, 0, false⟩]) =
      [⟨0, 4860000, 81, 81, 0, 0, true⟩] ∧
    dedupSleep (sortSleep
        [⟨0, 6000000, 100, 100, 0, 0, false⟩, ⟨0, 4860000, 81, 81, 0, 0, true⟩]) =
      [⟨0, 4860000, 81, 81, 0, 0, true⟩] :=
  C1_dedup.2.2 ⟨0, 4860000, 81, 81, 0, 0, true⟩ ⟨0, 6000000, 100, 100, 0, 0, false⟩
    rfl rfl (by norm_num [overlapMinutes])

/-! ## Claim C8 (status: corrected)

The division at source line 644 (`vals.reduce(..) / vals.length`) is **not**
guarded: an empty HRV day bucket (created at line 599 for every record of the
year before any sample is pushed) divides `0 / 0`, producing `NaN` — which
the subsequent `value > 0` filter silently removes.  The All-Time `minSpO2`
at line 1092 reduces `Math.min()` over an empty list when no year has a
positive `minSpO2`, producing `Infinity` **in the output**.  The per-year
reductions (lines 657–660) are guarded as claimed. -/

/-- C8 counterexample: the per-day HRV mean of an empty bucket is `NaN`, and
the All-Time minimum-SpO2 over years with no positive SpO2 is `Infinity` —
not `0`/sentinel values. -/
theorem C8_counterexample :
    dailyMeanValue [] = JSNum.nan ∧ allTimeMinSpO2 [0] = JSNum.inf := by
  constructor
  · rfl
  · simp [allTimeMinSpO2]

/-- C8 (amended): the per-year empty reductions are guarded to `0`; the `NaN`
produced by an empty HRV day bucket never reaches the output series (the
`value > 0` filter removes it); the All-Time minimum-SpO2 over years with no
positive value is `Infinity`. -/
theorem C8_numericGuards :
    (∀ (buckets : List (String × List ℚ)) (p : String × JSNum),
        p ∈ dailyHRVData buckets → ∃ q : ℚ, p.2 = JSNum.fin q ∧ 0 < q) ∧
    guardedRoundMean [] = 0 ∧ guardedMin [] = 0 ∧
    (∀ perYear : List ℚ, (∀ v ∈ perYear, v ≤ 0) →
      allTimeMinSpO2 perYear = JSNum.inf) := by
  refine ⟨?_, rfl, rfl, ?_⟩
  · intro buckets p hp
    rw [dailyHRVData, sortByDate] at hp
    rw [List.mem_insertionSort] at hp
    rw [List.mem_filter] at hp
    obtain ⟨hmem, hgt⟩ := hp
    rw [List.mem_map] at hmem
    obtain ⟨b, _, rfl⟩ := hmem
    by_cases hlen : b.2.length = 0
    · rw [dailyMeanValue, if_pos hlen] at hgt ⊢
      simp [jsGtZero] at hgt
    · rw [dailyMeanValue, if_neg hlen] at hgt ⊢
      refine ⟨jsRoundQ (b.2.sum / b.2.length), rfl, ?_⟩
      simpa [jsGtZero] using hgt
  · intro perYear h
    have hfil : perYear.filter (fun v => decide (0 < v)) = [] := by
      rw [List.filter_eq_nil_iff]
      intro v hv
      simpa using h v hv
    rw [allTimeMinSpO2, hfil]

/-- C8 witness: a one-sample bucket survives into the HRV series as a finite
positive value, and an All-Time SpO2 list with only a non-positive entry
yields `Infinity`. -/
theorem C8_witness :
    (∃ q : ℚ, (("d", JSNum.fin 1) : String × JSNum).2 = JSNum.fin q ∧ 0 < q) ∧
    allTimeMinSpO2 [-1] = JSNum.inf := by
  constructor
  · refine C8_numericGuards.1 [("d", [1])] ("d", JSNum.fin 1) ?_
    have h1 : dailyMeanValue [1] = JSNum.fin 1 := by
      rw [dailyMeanValue]
      norm_num [jsRoundQ]
    simp [dailyHRVData, sortByDate, h1, jsGtZero, List.insertionSort]
  · exact C8_numericGuards.2.2.2 [-1] (by norm_num)

/-! ## Claim C2 (status: confirmed) -/

/-- C2: asleep-time resolution — a combined-source record keeps its raw
duration; a non-combined record whose span is within 5 minutes of the raw
duration and whose efficiency is strictly between 0 and 100 gets
`raw × efficiency / 100`; every other record keeps the raw duration; with
the claim's two numeric examples. -/
theorem C2_asleepTime :
    (∀ (s : SleepRow) (e : EnrichedSleep), enrichSleep s = some e →
      (e.isCombined = true → e.duration = e.rawDuration) ∧
      (e.isCombined = false → 0 < e.efficiency → e.efficiency < 100 →
        spanMatchesRaw s e.rawDuration →
        e.duration = e.rawDuration * (e.efficiency / 100)) ∧
      (e.isCombined = true ∨
          ¬ (0 < e.efficiency ∧ e.efficiency < 100 ∧ spanMatchesRaw s e.rawDuration) →
        e.duration = e.rawDuration)) ∧
    (enrichSleep ⟨some 0, some 28800000, 0, 480, 90, 0, "sleep.csv"⟩).map
      (fun e => e.duration) = some 432 ∧
    (enrichSleep ⟨some 0, some 25200000, 0, 420, 90, 0, "sleep_combined.csv"⟩).map
      (fun e => e.duration) = some 420 := by
  refine ⟨?_, ?_, ?_⟩
  · intro s e h
    obtain ⟨sms, ems, off, durF, effF, scF, fn⟩ := s
    cases sms with
    | none => simp [enrichSleep] at h
    | some st =>
      cases ems with
      | none =>
        simp only [enrichSleep, Option.some.injEq] at h
        subst h
        refine ⟨fun _ => ?_, fun _ _ _ hspan => ?_, fun _ => ?_⟩
        · exact if_neg (by rintro ⟨-, -, -, hm⟩; exact Bool.noConfusion hm)
        · obtain ⟨st', en', -, hen, -⟩ := hspan
          exact Option.noConfusion hen
        · exact if_neg (by rintro ⟨-, -, -, hm⟩; exact Bool.noConfusion hm)
      | some en =>
        simp only [enrichSleep, Option.some.injEq] at h
        subst h
        have hspanIff :
            spanMatchesRaw ⟨some st, some en, off, durF, effF, scF, fn⟩
                (if (decide (en ≤ st)) = false ∧
                    (if durF > 1440 then durF / 60000 else durF) = 0 then
                  (((some en).getD 0 : Int) : ℚ) - (st : ℚ)
                    |> (· / 60000)
                else if durF > 1440 then durF / 60000 else durF) ↔
              |((en : ℚ) - (st : ℚ)) / 60000 -
                (if (decide (en ≤ st)) = false ∧
                    (if durF > 1440 then durF / 60000 else durF) = 0 then
                  ((((some en).getD 0 : Int) : ℚ) - (st : ℚ)) / 60000
                else if durF > 1440 then durF / 60000 else durF)| < 5 := by
          constructor
          · rintro ⟨st', en', hst', hen', hlt⟩
            obtain rfl : st' = st := by injection hst' with hh; exact hh.symm
            obtain rfl : en' = en := by injection hen' with hh; exact hh.symm
            simpa using hlt
          · intro hlt
            exact ⟨st, en, rfl, rfl, by simpa using hlt⟩
        refine ⟨?_, ?_, ?_⟩
        · intro hcomb
          have hcomb' : containsSubstr "combined" (toLowerStr fn) = true := hcomb
          exact if_neg (by rintro ⟨hf, -⟩; exact Bool.noConfusion (hcomb'.symm.trans hf))
        · intro hcomb heffpos hefflt hspan
          have hlt := hspanIff.mp hspan
          exact if_pos ⟨hcomb, heffpos, hefflt, decide_eq_true hlt⟩
        · intro hother
          rcases hother with hcomb | hnot
          · have hcomb' : containsSubstr "combined" (toLowerStr fn) = true := hcomb
            exact if_neg (by rintro ⟨hf, -⟩; exact Bool.noConfusion (hcomb'.symm.trans hf))
          · refine if_neg (fun hC => hnot ⟨hC.2.1, hC.2.2.1, ?_⟩)
            exact hspanIff.mpr (of_decide_eq_true hC.2.2.2)
  · norm_num [enrichSleep, containsSubstr, toLowerStr]
    decide
  · norm_num [enrichSleep, containsSubstr, toLowerStr]
    decide

/-- C2 witness: the combined-source example record resolves its asleep time
to its raw duration. -/
theorem C2_witness :
    (⟨0, 25200000, 420, 420, 90, 0, true⟩ : EnrichedSleep).duration =
      (⟨0, 25200000, 420, 420, 90, 0, true⟩ : EnrichedSleep).rawDuration :=
  (C2_asleepTime.1 ⟨some 0, some 25200000, 0, 420, 90, 0, "sleep_combined.csv"⟩
    ⟨0, 25200000, 420, 420, 90, 0, true⟩
    (by norm_num [enrichSleep, containsSubstr, toLowerStr]; decide)).1 rfl

/-! ## Claim C7 (status: confirmed) -/

/-- C7: header detection — the claim's 3-junk-lines example selects the 4th
line; the keyword scan picks the first qualifying line among the first 12;
and when no line has more than 5 fields the parser returns an empty result
rather than an error. -/
theorem C7_headerDetection :
    parseCSV "junk1\njunk2\njunk3\nDate,Count,Calorie,Distance,Speed,Source\n1,2,3,4,5,6" =
      [[("Date", "1"), ("Count", "2"), ("Calorie", "3"), ("Distance", "4"),
        ("Speed", "5"), ("Source", "6")]] ∧
    (∀ (lines : List String) (i : Nat), i < 12 → i < lines.length →
      (∀ j, j < i → headerPred (lines.getD j "") = false) →
      headerPred (lines.getD i "") = true →
      headerIdx lines = some i) ∧
    (∀ csvText : String,
      (∀ l ∈ splitLines csvText, ¬ 5 < (splitCSVLine l).length) →
      parseCSV csvText = []) := by
  refine ⟨by decide, ?_, ?_⟩
  · intro lines i h12 hlen hbefore hit
    have htake : (lines.take 12).findIdx? headerPred = some i := by
      refine findIdx?_first headerPred "" (lines.take 12) i ?_ ?_ ?_
      · simpa [List.length_take] using And.intro h12 hlen
      · intro j hj
        have hjd : (lines.take 12).getD j "" = lines.getD j "" := by
          have hj12 : j < 12 := lt_trans hj h12
          simp [List.getD, List.getElem?_take, hj12]
        rw [hjd]
        exact hbefore j hj
      · have hid : (lines.take 12).getD i "" = lines.getD i "" := by
          simp [List.getD, List.getElem?_take, h12]
        rw [hid]
        exact hit
    rw [headerIdx, htake]
  · intro csvText hshort
    have hpred : ∀ l ∈ splitLines csvText, headerPred l = false := by
      intro l hl
      have := hshort l hl
      simp [headerPred, this]
    have h5 : ∀ l ∈ splitLines csvText,
        (fun l => decide ((splitCSVLine l).length > 5)) l = false := by
      intro l hl
      simpa using hshort l hl
    have hnone : headerIdx (splitLines csvText) = none := by
      rw [headerIdx, findIdx?_none_of_all_false
        (fun x hx => hpred x (List.take_subset 12 _ hx))]
      exact findIdx?_none_of_all_false h5
    rw [parseCSV]
    by_cases hl2 : (splitLines csvText).length < 2
    · simp [hl2]
    · simp [hl2, hnone]

/-- C7 witness: the claim's concrete line list selects index 3 (the 4th
line) as the header. -/
theorem C7_witness :
    headerIdx ["junk1", "junk2", "junk3", "Date,Count,Calorie,Distance,Speed,Source",
      "1,2,3,4,5,6"] = some 3 :=
  C7_headerDetection.2.1
    ["junk1", "junk2", "junk3", "Date,Count,Calorie,Distance,Speed,Source", "1,2,3,4,5,6"]
    3 (by norm_num) (by norm_num) (by decide) (by decide)

/-! ## Claim C9 (status: confirmed) -/

/-- C9: the synthetic All-Time entry sums the additive totals, arithmetic-
means the rate-like fields, takes maxima of the best-of fields, and emits
every merged per-day series sorted by date; the two example years with steps
`{100, 200}` and `{300}` total 600. -/
theorem C9_allTime (ys : List YearStatsR) (_h : ys ≠ []) :
    (allTimeStats ys).totalSteps = (ys.map (·.totalSteps)).sum ∧
    (allTimeStats ys).totalCalories = (ys.map (·.totalCalories)).sum ∧
    (allTimeStats ys).totalDistance = (ys.map (·.totalDistance)).sum ∧
    (allTimeStats ys).totalWorkouts = (ys.map (·.totalWorkouts)).sum ∧
    (allTimeStats ys).totalWorkoutDuration = (ys.map (·.totalWorkoutDuration)).sum ∧
    (allTimeStats ys).totalWorkoutCalories = (ys.map (·.totalWorkoutCalories)).sum ∧
    (allTimeStats ys).totalWorkoutDistance = (ys.map (·.totalWorkoutDistance)).sum ∧
    (allTimeStats ys).dailyAvg =
      (jsRoundQ ((ys.map (·.dailyAvg)).sum / ys.length) : ℚ) ∧
    (allTimeStats ys).avgEfficiency =
      (jsRoundQ ((ys.map (·.avgEfficiency)).sum / ys.length) : ℚ) ∧
    (allTimeStats ys).avgRestingHR =
      (jsRoundQ ((ys.map (·.avgRestingHR)).sum / ys.length) : ℚ) ∧
    (allTimeStats ys).avgHRV =
      (jsRoundQ ((ys.map (·.avgHRV)).sum / ys.length) : ℚ) ∧
    (allTimeStats ys).avgStress =
      (jsRoundQ ((ys.map (·.avgStress)).sum / ys.length) : ℚ) ∧
    (allTimeStats ys).bestDay.count =
      ys.foldl (fun acc y => max acc y.bestDay.count) 0 ∧
    (allTimeStats ys).bestMonth.steps =
      ys.foldl (fun acc y => max acc y.bestMonth.steps) 0 ∧
    (allTimeStats ys).prMostStepsDay.count =
      ys.foldl (fun acc y => max acc y.prMostStepsDay.count) 0 ∧
    (allTimeStats ys).prLongestWorkout.duration =
      ys.foldl (fun acc y => max acc y.prLongestWorkout.duration) 0 ∧
    (allTimeStats ys).prBestSleepScore.score =
      ys.foldl (fun acc y => max acc y.prBestSleepScore.score) 0 ∧
    List.Sorted fstLE (allTimeStats ys).dailyStepData ∧
    List.Sorted fstLE (allTimeStats ys).dailySleepData ∧
    List.Sorted fstLE (allTimeStats ys).dailySleepScoreData ∧
    List.Sorted fstLE (allTimeStats ys).dailyHRData ∧
    List.Sorted fstLE (allTimeStats ys).dailyHRVData ∧
    List.Sorted fstLE (allTimeStats ys).dailyStressData ∧
    List.Sorted fstLE (allTimeStats ys).dailySpO2Data ∧
    List.Sorted datedWLE (allTimeStats ys).dailyWorkoutData ∧
    (allTimeStats [exampleYear1, exampleYear2]).totalSteps = 600 := by
  refine ⟨rfl, rfl, rfl, rfl, rfl, rfl, rfl, rfl, rfl, rfl, rfl, rfl,
    ?_, ?_, ?_, ?_, ?_,
    List.sorted_insertionSort fstLE _, List.sorted_insertionSort fstLE _,
    List.sorted_insertionSort fstLE _, List.sorted_insertionSort fstLE _,
    List.sorted_insertionSort fstLE _, List.sorted_insertionSort fstLE _,
    List.sorted_insertionSort fstLE _, List.sorted_insertionSort datedWLE _, ?_⟩
  · exact foldl_best (fun y => y.bestDay) (fun b => b.count) ys ⟨0, ""⟩
  · exact foldl_best (fun y => y.bestMonth) (fun b => b.steps) ys ⟨"", 0⟩
  · exact foldl_best (fun y => y.prMostStepsDay) (fun b => b.count) ys ⟨0, ""⟩
  · exact foldl_best (fun y => y.prLongestWorkout) (fun b => b.duration) ys ⟨0, "", ""⟩
  · exact foldl_best (fun y => y.prBestSleepScore) (fun b => b.score) ys ⟨0, ""⟩
  · norm_num [allTimeStats, exampleYear1, exampleYear2, zeroYear]

/-- C9 witness: the aggregation of the two example years reports the summed
total of 600 steps. -/
theorem C9_witness :
    (allTimeStats [exampleYear1, exampleYear2]).totalSteps =
      ([exampleYear1, exampleYear2].map (·.totalSteps)).sum :=
  (C9_allTime [exampleYear1, exampleYear2] (by simp)).1

/-! ## Claim C5 (status: confirmed) -/

/-- `atan2` lands in `(-π, π]`. -/
theorem atan2_bounds (y x : ℝ) : -Real.pi < atan2 y x ∧ atan2 y x ≤ Real.pi := by
  have hpi := Real.pi_pos
  rw [atan2]
  split_ifs with hx hx' hy hy' hy''
  · have h1 := Real.arctan_lt_pi_div_two (y / x)
    have h2 := Real.neg_pi_div_two_lt_arctan (y / x)
    constructor <;> linarith
  · have hdiv : y / x ≤ 0 := div_nonpos_of_nonneg_of_nonpos hy hx'.le
    have h1 : Real.arctan (y / x) ≤ 0 := by
      have := Real.arctan_strictMono.monotone hdiv
      simpa [Real.arctan_zero] using this
    have h2 := Real.neg_pi_div_two_lt_arctan (y / x)
    constructor <;> linarith
  · have hdiv : 0 < y / x := div_pos_of_neg_of_neg (lt_of_not_le hy) hx'
    have h1 : 0 < Real.arctan (y / x) := by
      have := Real.arctan_strictMono hdiv
      simpa [Real.arctan_zero] using this
    have h2 := Real.arctan_lt_pi_div_two (y / x)
    constructor <;> linarith
  · constructor <;> linarith
  · constructor <;> linarith
  · constructor <;> linarith

/-- C5: the circular average always lands in `[0, 1440)`, and the circular
mean of 23:50 (1430 min) and 00:10 (10 min) is exactly midnight (0 min),
not noon. -/
theorem C5_circularAverage :
    (∀ l : List ℝ,
      0 ≤ calculateCircularAverage l ∧ calculateCircularAverage l < 1440) ∧
    calculateCircularAverage [1430, 10] = 0 := by
  have hpi := Real.pi_pos
  constructor
  · intro l
    by_cases hl : l = []
    · simp [calculateCircularAverage, hl]
    · simp only [calculateCircularAverage, if_neg hl]
      obtain ⟨hlo, hhi⟩ := atan2_bounds
        ((l.map fun m => Real.sin (m / 1440 * (2 * Real.pi))).sum / l.length)
        ((l.map fun m => Real.cos (m / 1440 * (2 * Real.pi))).sum / l.length)
      set a0 := atan2
        ((l.map fun m => Real.sin (m / 1440 * (2 * Real.pi))).sum / l.length)
        ((l.map fun m => Real.cos (m / 1440 * (2 * Real.pi))).sum / l.length) with ha0
      have hA : 0 ≤ (if a0 < 0 then a0 + 2 * Real.pi else a0) ∧
          (if a0 < 0 then a0 + 2 * Real.pi else a0) < 2 * Real.pi := by
        by_cases hneg : a0 < 0
        · rw [if_pos hneg]
          constructor <;> linarith
        · rw [if_neg hneg]
          push_neg at hneg
          constructor <;> linarith
      constructor
      · have := hA.1
        positivity
      · set A := if a0 < 0 then a0 + 2 * Real.pi else a0
        have h1 : A / (2 * Real.pi) < 1 := (div_lt_one (by linarith)).mpr hA.2
        nlinarith [hA.1]
  · have hne : ([1430, 10] : List ℝ) ≠ [] := by simp
    simp only [calculateCircularAverage, if_neg hne, List.map_cons, List.map_nil,
      List.sum_cons, List.sum_nil, List.length_cons, List.length_nil]
    have hangle : (1430 : ℝ) / 1440 * (2 * Real.pi) =
        2 * Real.pi - 10 / 1440 * (2 * Real.pi) := by ring
    have hsin : Real.sin ((1430 : ℝ) / 1440 * (2 * Real.pi)) =
        -Real.sin ((10 : ℝ) / 1440 * (2 * Real.pi)) := by
      rw [hangle, Real.sin_sub, Real.sin_two_pi, Real.cos_two_pi]
      ring
    have hcos : Real.cos ((1430 : ℝ) / 1440 * (2 * Real.pi)) =
        Real.cos ((10 : ℝ) / 1440 * (2 * Real.pi)) := by
      rw [hangle, Real.cos_sub, Real.sin_two_pi, Real.cos_two_pi]
      ring
    rw [hsin, hcos]
    have hsum0 : -Real.sin ((10 : ℝ) / 1440 * (2 * Real.pi)) +
        (Real.sin ((10 : ℝ) / 1440 * (2 * Real.pi)) + 0) = 0 := by ring
    rw [hsum0]
    have hcpos : 0 < Real.cos ((10 : ℝ) / 1440 * (2 * Real.pi)) := by
      have harg : (10 : ℝ) / 1440 * (2 * Real.pi) = Real.pi / 72 := by ring
      rw [harg]
      exact Real.cos_pos_of_mem_Ioo ⟨by linarith, by linarith⟩
    have hcsum : Real.cos ((10 : ℝ) / 1440 * (2 * Real.pi)) +
        (Real.cos ((10 : ℝ) / 1440 * (2 * Real.pi)) + 0) =
        2 * Real.cos ((10 : ℝ) / 1440 * (2 * Real.pi)) := by ring
    rw [hcsum]
    have hn : ((0 + 1 + 1 : ℕ) : ℝ) = 2 := by norm_num
    rw [hn]
    have hcd : 0 < 2 * Real.cos ((10 : ℝ) / 1440 * (2 * Real.pi)) / 2 := by
      positivity
    have hzero : atan2 (0 / 2)
        (2 * Real.cos ((10 : ℝ) / 1440 * (2 * Real.pi)) / 2) = 0 := by
      rw [atan2, if_pos hcd, zero_div, zero_div, Real.arctan_zero]
    rw [hzero, if_neg (lt_irrefl 0), zero_div, zero_mul]

/-! ## Claim C6 (status: corrected)

`calculateCorrelation` returns `0`, not `1`, when a zero-variance series is
paired with itself (the `denominator === 0` guard fires before the
self-correlation case), so the universally-quantified first clause of the
claim fails on constant series. -/

/-- Sum of squares of a list is nonnegative. -/
theorem listSqSum_nonneg (l : List ℝ) : 0 ≤ (l.map fun a => a * a).sum := by
  induction l with
  | nil => simp
  | cons a t ih =>
    simp only [List.map_cons, List.sum_cons]
    nlinarith [sq_nonneg a]

/-- Cauchy–Schwarz for lists: `(Σx)² ≤ n · Σx²`. -/
theorem sq_sum_le (l : List ℝ) :
    l.sum * l.sum ≤ l.length * (l.map fun a => a * a).sum := by
  induction l with
  | nil => simp
  | cons a t ih =>
    simp only [List.map_cons, List.sum_cons, List.length_cons]
    push_cast
    rcases Nat.eq_zero_or_pos t.length with h0 | hpos
    · obtain rfl : t = [] := List.length_eq_zero.mp h0
      simp only [List.length_nil, List.sum_nil, List.map_nil]
      push_cast
      nlinarith [sq_nonneg a]
    · have hn : (0 : ℝ) < t.length := by exact_mod_cast hpos
      nlinarith [sq_nonneg ((t.length : ℝ) * a - t.sum), ih, listSqSum_nonneg t,
        mul_pos hn hn]

/-- The variance numerator `n·Σx² − (Σx)²` is nonnegative. -/
theorem varNum_nonneg (x : List ℝ) : 0 ≤ varNum x := by
  rw [varNum]
  have := sq_sum_le x
  linarith

/-- Zipping a list with itself and multiplying gives the squares. -/
theorem zip_self_mul (l : List ℝ) :
    ((l.zip l).map fun p => p.1 * p.2).sum = (l.map fun a => a * a).sum := by
  induction l with
  | nil => rfl
  | cons a t ih => simp [ih]

/-- Zipping with the negated list gives minus the squares. -/
theorem zip_neg_mul (l : List ℝ) :
    ((l.zip (l.map fun v => -v)).map fun p => p.1 * p.2).sum =
      -((l.map fun a => a * a).sum) := by
  induction l with
  | nil => simp
  | cons a t ih =>
    simp only [List.map_cons, List.zip_cons_cons, List.sum_cons, ih]
    ring

/-- The sum of a negated list. -/
theorem map_neg_sum (l : List ℝ) : (l.map fun v => -v).sum = -l.sum := by
  induction l with
  | nil => simp
  | cons a t ih =>
    simp only [List.map_cons, List.sum_cons, ih]
    ring

/-- Squares are invariant under negation. -/
theorem map_neg_sq (l : List ℝ) :
    (((l.map fun v => -v).map fun a => a * a)).sum = (l.map fun a => a * a).sum := by
  induction l with
  | nil => simp
  | cons a t ih =>
    simp only [List.map_cons, List.sum_cons, ih]
    ring

/-- C6 counterexample: the constant series `[5, 5]` paired with itself
correlates to `0`, not the claimed `1.0`. -/
theorem C6_counterexample :
    calculateCorrelation [5, 5] [5, 5] = 0 ∧
    calculateCorrelation [5, 5] [5, 5] ≠ 1 := by
  have h : calculateCorrelation [5, 5] [5, 5] = 0 := by
    simp only [calculateCorrelation]
    norm_num
  exact ⟨h, by rw [h]; norm_num⟩

/-- C6 (amended): Pearson correlation of a **nonzero-variance** series with
itself is `1.0` and with its negation is `−1.0`; the result is `0` for empty
or unequal-length inputs and whenever either series has zero variance
(including a constant series paired with itself). -/
theorem C6_correlation :
    (∀ x : List ℝ, varNum x ≠ 0 → calculateCorrelation x x = 1) ∧
    (∀ x : List ℝ, varNum x ≠ 0 →
      calculateCorrelation x (x.map fun v => -v) = -1) ∧
    (∀ x y : List ℝ,
      x.length ≠ y.length ∨ x = [] ∨ varNum x = 0 ∨ varNum y = 0 →
      calculateCorrelation x y = 0) := by
  refine ⟨?_, ?_, ?_⟩
  · intro x hv
    have hx : x.length ≠ 0 := by
      intro h0
      obtain rfl : x = [] := List.length_eq_zero.mp h0
      simp [varNum] at hv
    have hguard : ¬(x.length ≠ x.length ∨ x.length = 0) := by simp [hx]
    simp only [calculateCorrelation, if_neg hguard]
    rw [zip_self_mul]
    have hfold : (x.length : ℝ) * (x.map fun a => a * a).sum - x.sum * x.sum =
        varNum x := rfl
    rw [hfold, Real.sqrt_mul_self (varNum_nonneg x), if_neg hv]
    exact div_self hv
  · intro x hv
    have hx : x.length ≠ 0 := by
      intro h0
      obtain rfl : x = [] := List.length_eq_zero.mp h0
      simp [varNum] at hv
    have hguard : ¬(x.length ≠ (x.map fun v => -v).length ∨ x.length = 0) := by
      simp [hx]
    simp only [calculateCorrelation, if_neg hguard]
    rw [zip_neg_mul, map_neg_sum, map_neg_sq]
    have h1 : (x.length : ℝ) * -(x.map fun a => a * a).sum - x.sum * -x.sum =
        -varNum x := by
      rw [varNum]
      ring
    have h2 : ((x.length : ℝ) * (x.map fun a => a * a).sum - x.sum * x.sum) *
        ((x.length : ℝ) * (x.map fun a => a * a).sum - -x.sum * -x.sum) =
        varNum x * varNum x := by
      rw [varNum]
      ring
    rw [h1]
    rw [show (x.length : ℝ) * (x.map fun a => a * a).sum - -x.sum * -x.sum =
      varNum x by rw [varNum]; ring]
    rw [show (x.length : ℝ) * (x.map fun a => a * a).sum - x.sum * x.sum =
      varNum x from rfl]
    rw [Real.sqrt_mul_self (varNum_nonneg x), if_neg hv]
    rw [neg_div, div_self hv]
  · intro x y h
    by_cases hguard : x.length ≠ y.length ∨ x.length = 0
    · simp only [calculateCorrelation, if_pos hguard]
    · push_neg at hguard
      obtain ⟨hlen, hx0⟩ := hguard
      rcases h with hbad | hbad | hvx | hvy
      · exact absurd hlen (by simpa using hbad)
      · exact absurd (by simp [hbad]) hx0
      · have hguard2 : ¬(x.length ≠ y.length ∨ x.length = 0) :=
          not_or.mpr ⟨by simpa using hlen, hx0⟩
        simp only [calculateCorrelation, if_neg hguard2]
        rw [show (x.length : ℝ) * (x.map fun a => a * a).sum - x.sum * x.sum =
          varNum x from rfl]
        rw [hvx, zero_mul, Real.sqrt_zero, if_pos rfl]
      · have hguard2 : ¬(x.length ≠ y.length ∨ x.length = 0) :=
          not_or.mpr ⟨by simpa using hlen, hx0⟩
        simp only [calculateCorrelation, if_neg hguard2]
        rw [show (x.length : ℝ) * (y.map fun a => a * a).sum - y.sum * y.sum =
          varNum y by rw [varNum, hlen]]
        rw [hvy, mul_zero, Real.sqrt_zero, if_pos rfl]

/-- C6 witness: the nonconstant series `[1, 2]` self-correlates to `1`,
correlates with its negation to `−1`, and a length mismatch gives `0`. -/
theorem C6_witness :
    calculateCorrelation [1, 2] [1, 2] = 1 ∧
    calculateCorrelation [1, 2] ([1, 2].map fun v => -v) = -1 ∧
    calculateCorrelation [5, 5] [42] = 0 := by
  have hv : varNum [1, 2] ≠ 0 := by
    simp only [varNum]
    norm_num
  exact ⟨C6_correlation.1 [1, 2] hv, C6_correlation.2.1 [1, 2] hv,
    C6_correlation.2.2 [5, 5] [42] (Or.inl (by norm_num))⟩

/-! ## Claim C10 (status: confirmed) -/

/-- For `0 ≤ i ≤ 60`, `pad2 i` is a nonempty digit string (its first
character is not `'-'`). -/
theorem pad2_head (i : ℤ) (h0 : 0 ≤ i) (h60 : i ≤ 60) :
    (pad2 i).data ≠ [] ∧ (pad2 i).data.headD '-' ≠ '-' := by
  interval_cases i <;> exact (by decide)

/-- C10: `formatToHHmm` maps `0` to the `'--:--'` placeholder — identically
to the no-samples case, whose circular average is `0` — and every minute
value in `(0, 1440)` to a clock string different from the placeholder, so an
exact-midnight average is indistinguishable from missing data. -/
theorem C10_midnightPlaceholder :
    formatToHHmm 0 = "--:--" ∧
    (∀ m : ℝ, 0 < m → m < 1440 → formatToHHmm m ≠ "--:--") ∧
    formatToHHmm (calculateCircularAverage []) = "--:--" := by
  have h0fmt : formatToHHmm 0 = "--:--" := by
    rw [formatToHHmm, if_pos rfl]
  refine ⟨h0fmt, ?_, ?_⟩
  · intro m hm0 hm1440
    rw [formatToHHmm, if_neg (ne_of_gt hm0)]
    intro heq
    -- bounds for the hour digit pair
    have hfl0 : (0 : ℤ) ≤ ⌊m / 60⌋ := Int.floor_nonneg.mpr (by positivity)
    have hfl24 : ⌊m / 60⌋ < 24 := by
      rw [Int.floor_lt]
      push_cast
      rw [div_lt_iff₀ (by norm_num : (0:ℝ) < 60)]
      linarith
    have hh0 : (0 : ℤ) ≤ Int.tmod ⌊m / 60⌋ 24 := Int.tmod_nonneg _ hfl0
    have hh24 : Int.tmod ⌊m / 60⌋ 24 < 24 :=
      Int.tmod_lt_of_pos _ (by norm_num)
    -- bounds for the minute digit pair
    have htr : realTrunc (m / 60) = ⌊m / 60⌋ := by
      rw [realTrunc, if_pos (by positivity)]
    have hmod0 : 0 ≤ jsMod m 60 := by
      rw [jsMod, htr]
      have := Int.floor_le (m / 60)
      have h60 : (0:ℝ) < 60 := by norm_num
      nlinarith [Int.floor_le (m / 60)]
    have hmod60 : jsMod m 60 < 60 := by
      rw [jsMod, htr]
      have := Int.lt_floor_add_one (m / 60)
      nlinarith [Int.lt_floor_add_one (m / 60)]
    have hm0' : (0 : ℤ) ≤ ⌊jsMod m 60 + 1 / 2⌋ :=
      Int.floor_nonneg.mpr (by linarith)
    have hm60 : ⌊jsMod m 60 + 1 / 2⌋ ≤ 60 := by
      have : ⌊jsMod m 60 + 1 / 2⌋ < 61 := by
        rw [Int.floor_lt]
        push_cast
        linarith
      omega
    obtain ⟨hne, hhead⟩ := pad2_head _ hh0 (by omega)
    obtain ⟨c, cs, hc⟩ := List.exists_cons_of_ne_nil hne
    have hdata := congrArg String.data heq
    rw [String.data_append, String.data_append, hc] at hdata
    have : c = '-' := by
      have h5 : ("--:--").data = ['-', '-', ':', '-', '-'] := by decide
      rw [h5] at hdata
      simpa using congrArg (fun l => l.headD ' ') hdata
    rw [hc, this] at hhead
    simp at hhead
  · have hempty : calculateCircularAverage [] = 0 := by
      rw [calculateCircularAverage, if_pos rfl]
    rw [hempty, h0fmt]

/-- C10 witness: 90 minutes past midnight renders as a clock string, not the
placeholder. -/
theorem C10_witness : formatToHHmm (90 : ℝ) ≠ "--:--" :=
  C10_midnightPlaceholder.2.1 90 (by norm_num) (by norm_num)

end HealthParser
